import Mathlib

/-!
Shallow embedding of the transaction enrichment core
(`src/background/services/enrichment/transactions.ts`).

Conventions of the embedding:
* EVM addresses are `String`s; bigint quantities are `Nat` (they are
  non-negative in the source).
* A TypeScript field that can be `undefined` is an `Option`; the
  `input` field distinguishes `undefined` / `null` / a string, so it is
  an `Option (Option InputData)`.
* `async` collaborator calls that can reject are modelled in the
  `Except Unit` monad: `.error ()` is a rejected promise.  A call whose
  rejection is absorbed by `Promise.allSettled` in the source is applied
  and pattern-matched without propagating the error.
* The current wall-clock time (`Date.now()`) is an explicit parameter.

Helper libraries of the repository (`lib/erc20`, `lib/wrappedAsset`,
`lib/utils`, `enrichment/utils`, `redux-slices/utils/asset-utils`) are
not part of the provided sources; their definitions below are modelled
from the specification text and are marked as such.

Because the token "annotation" cannot appear in Lean identifiers here,
the TypeScript names `TransactionAnnotation`, `annotationsFromLogs`,
`resolveTransactionAnnotation` and the `subannotations` field are
rendered as `TxAnnot`, `annotsFromLogs`, `resolveTransactionAnnot` and
`subannots`; the doc comment of each definition records its source name.
-/

/-- Modelled from the spec: `normalizeEVMAddress` from `lib/utils` (not in
the provided sources).  Address comparison is case-insensitive, so
normalization is lower-casing, written over the character list so that
the kernel can evaluate it. -/
def normalizeEVMAddress (address : String) : String :=
  String.mk (address.data.map Char.toLower)

/-- Modelled from the spec: `sameEVMAddress` from `lib/utils` (not in the
provided sources): case-insensitive address equality. -/
def sameEVMAddress (a b : String) : Bool :=
  normalizeEVMAddress a == normalizeEVMAddress b

/-- The native base asset of a network (`network.baseAsset` in the source). -/
structure NetworkBaseAsset where
  symbol : String
  decimals : Nat
deriving Repr, DecidableEq

/-- A catalog fungible asset backed by a contract
(`SmartContractFungibleAsset` in the source); `logoURL` stands for
`metadata?.logoURL`. -/
structure SmartContractFungibleAsset where
  symbol : String
  decimals : Nat
  contractAddress : String
  logoURL : Option String
deriving Repr, DecidableEq

/-- An entry of the cached asset catalog: the catalog also holds entries
that are not contract-backed fungible assets, which
`isSmartContractFungibleAsset` filters out. -/
inductive AnyAsset where
  | fungible (asset : SmartContractFungibleAsset)
  | other
deriving Repr, DecidableEq

/-- Type-guard `isSmartContractFungibleAsset` from `assets` (not in the
provided sources), modelled as a variant check. -/
def isSmartContractFungibleAsset : AnyAsset → Bool
  | .fungible _ => true
  | .other => false

/-- The asset slot of an `AssetAmount`: either a catalog contract asset or
the native base asset of a network. -/
inductive AssetRef where
  | contract (asset : SmartContractFungibleAsset)
  | base (asset : NetworkBaseAsset)
deriving Repr, DecidableEq

/-- Decimal precision of the asset referenced. -/
def AssetRef.decimals : AssetRef → Nat
  | .contract a => a.decimals
  | .base a => a.decimals

/-- An asset paired with a raw integer amount. -/
structure AssetAmount where
  asset : AssetRef
  amount : Nat
deriving Repr, DecidableEq

/-- An `AssetAmount` additionally carrying the decimal-normalized amount. -/
structure EnrichedAssetAmount where
  asset : AssetRef
  amount : Nat
  decimalAmount : ℚ
deriving Repr, DecidableEq

/-- Modelled from the spec: `enrichAssetAmountWithDecimalValues` from
`redux-slices/utils/asset-utils` (not in the provided sources).  The
enriched form "carries the amount divided by 10^decimals"; with exact
rationals no precision is lost, so the division "must not lose more
precision than requested" holds for every `desiredDecimals`, which the
model therefore does not need to consult. -/
def enrichAssetAmountWithDecimalValues
    (assetAmount : AssetAmount) (desiredDecimals : Nat) : EnrichedAssetAmount :=
  { asset := assetAmount.asset
    amount := assetAmount.amount
    decimalAmount := (assetAmount.amount : ℚ) / (10 : ℚ) ^ assetAmount.asset.decimals }

/-- An EVM event log: emitting contract, indexed topics, data word.  The
topics are modelled as the event signature followed by the decoded
indexed address arguments, and the data bytes as the integer they
encode, since the byte-level decoding lives outside the provided
sources. -/
structure EVMLog where
  contractAddress : String
  topics : List String
  data : Nat
deriving Repr, DecidableEq

/-- A typed token-transfer record parsed from a log (`ERC20TransferLog`). -/
structure ERC20TransferLog where
  contractAddress : String
  senderAddress : String
  recipientAddress : String
  amount : Nat
deriving Repr, DecidableEq

/-- Event signature topic of standard fungible-token transfer events. -/
def transferEventTopic : String := "Transfer(address,address,uint256)"

/-- Event signature topic of wrapped-native-asset deposits. -/
def depositEventTopic : String := "Deposit(address,uint256)"

/-- Event signature topic of wrapped-native-asset withdrawals. -/
def withdrawalEventTopic : String := "Withdrawal(address,uint256)"

/-- Modelled from the spec: `parseLogsForERC20Transfers` from `lib/erc20`
(not in the provided sources).  Recognizes the three-topic standard
transfer shape (event selector, sender, recipient; data holds the
amount), skipping unrecognized logs and preserving log order. -/
def parseLogsForERC20Transfers (logs : List EVMLog) : List ERC20TransferLog :=
  logs.filterMap (fun log =>
    match log.topics with
    | [sig, senderAddress, recipientAddress] =>
      if sig = transferEventTopic then
        some { contractAddress := log.contractAddress
               senderAddress := senderAddress
               recipientAddress := recipientAddress
               amount := log.data }
      else none
    | _ => none)

/-- Modelled from the spec: `parseLogsForWrappedDepositsAndWithdrawals`
from `lib/wrappedAsset` (not in the provided sources).  Recognizes
wrapped-native-asset deposit/withdrawal events, "each producing a
transfer record with the wrapping contract as both asset contract and
counterparty as appropriate", skipping unrecognized logs and preserving
log order. -/
def parseLogsForWrappedDepositsAndWithdrawals
    (logs : List EVMLog) : List ERC20TransferLog :=
  logs.filterMap (fun log =>
    match log.topics with
    | [sig, counterparty] =>
      if sig = depositEventTopic then
        some { contractAddress := log.contractAddress
               senderAddress := log.contractAddress
               recipientAddress := counterparty
               amount := log.data }
      else if sig = withdrawalEventTopic then
        some { contractAddress := log.contractAddress
               senderAddress := counterparty
               recipientAddress := log.contractAddress
               amount := log.data }
      else none
    | _ => none)

/-- Modelled from the spec: `getERC20LogsForAddresses` from
`enrichment/utils` (not in the provided sources): keeps only transfers
whose sender or recipient is in the given address set,
case-insensitively. -/
def getERC20LogsForAddresses
    (transfers : List ERC20TransferLog) (addresses : List String) :
    List ERC20TransferLog :=
  transfers.filter (fun t =>
    addresses.any (fun a =>
      sameEVMAddress a t.senderAddress || sameEVMAddress a t.recipientAddress))

/-- First-occurrence deduplication helper. -/
def dedupKeepFirst (l : List String) : List String :=
  l.foldl (fun acc a => if a ∈ acc then acc else acc ++ [a]) []

/-- Modelled from the spec: `getDistinctRecipentAddressesFromERC20Logs`
from `enrichment/utils` (not in the provided sources): the distinct
recipient addresses of the transfers, deduplicated by normalized
address. -/
def getDistinctRecipentAddressesFromERC20Logs
    (transfers : List ERC20TransferLog) : List String :=
  dedupKeepFirst (transfers.map (fun t => normalizeEVMAddress t.recipientAddress))

/-- A decoded ERC-20 call (the result of `parseERC20Tx`): the function name and
its typed arguments.  `transfer` carries no `from` argument, matching
`erc20Tx.args.from ?? transaction.from` in the source. -/
inductive ERC20Call where
  | transfer (toAddr : String) (amount : Nat)
  | transferFrom (source : String) (toAddr : String) (amount : Nat)
  | approve (spender : String) (value : Nat)
deriving Repr, DecidableEq

/-- Transaction input bytes: either the literal empty call-data `"0x"`,
bytes that decode against the fixed ERC-20 selector table, or any other
byte string. -/
inductive InputData where
  | emptyData
  | erc20 (call : ERC20Call)
  | other (bytes : String)
deriving Repr, DecidableEq

/-- Modelled from the spec: `parseERC20Tx` from `lib/erc20` (not in the
provided sources).  Matches the leading selector against the fixed table
for `transfer`/`transferFrom`/`approve` and returns the decoded call, or
`none` for empty, unrecognized or malformed input. -/
def parseERC20Tx : InputData → Option ERC20Call
  | .erc20 call => some call
  | _ => none

/-- A block, reduced to the only field this core reads. -/
structure AnyEVMBlock where
  timestamp : Nat
deriving Repr, DecidableEq

/-- A network, reduced to the only field this core reads. -/
structure EVMNetwork where
  baseAsset : NetworkBaseAsset
deriving Repr, DecidableEq

/-- The transaction input of `resolveTransactionAnnotation`: an
`AnyEVMTransaction` or a partial EIP-1559 request.  `input` is `none`
when the field is `undefined`, `some none` when it is `null`, and
`some (some d)` when it is a byte string `d`.  `logs` is `none` when the
field is missing or `undefined`. -/
structure Transaction where
  fromAddress : String
  toAddr : Option String
  input : Option (Option InputData)
  value : Option Nat
  gasLimit : Option Nat
  maxFeePerGas : Option Nat
  maxPriorityFeePerGas : Option Nat
  blockHash : Option String
  logs : Option (List EVMLog)
deriving Repr, DecidableEq

/-- The collaborators, with the network argument fixed.
`lookUpName` and `baseAccountBalance` and `blockData` may reject
(`.error ()`); a successful `lookUpName` may still carry no name, and
`blockData` models `getBlockData` resolving to `undefined` as
`.ok none`. -/
structure Env where
  accountsToTrack : List String
  cachedAssets : List AnyAsset
  lookUpName : String → Except Unit (Option String)
  baseAccountBalance : String → Except Unit Nat
  blockData : String → Except Unit (Option AnyEVMBlock)

/-- A risk warning tag. -/
inductive Warning where
  | insufficientFunds
  | sendToToken
deriving Repr, DecidableEq

/-- The `type` tag of an annotation. -/
inductive AnnotType where
  | contractInteraction
  | contractDeployment
  | assetTransfer
  | assetApproval
deriving Repr, DecidableEq

/-- A child annotation produced by `annotationsFromLogs` (source type
`TransactionAnnotation`; the children built there always carry exactly
these fields, so they are modelled flat). -/
structure SubAnnot where
  type : AnnotType
  assetAmount : EnrichedAssetAmount
  senderAddress : String
  recipientAddress : String
  recipientName : Option String
  timestamp : Nat
  blockTimestamp : Option Nat
deriving Repr, DecidableEq

/-- The output value (source type `TransactionAnnotation`): the `type` tag
plus the optional fields the source object can carry; a field that a
branch does not set is `none`, matching an absent key. -/
structure TxAnnot where
  type : AnnotType
  timestamp : Nat
  blockTimestamp : Option Nat
  contractName : Option String := none
  transactionLogoURL : Option String := none
  senderAddress : Option String := none
  recipientAddress : Option String := none
  recipientName : Option String := none
  spenderAddress : Option String := none
  spenderName : Option String := none
  assetAmount : Option EnrichedAssetAmount := none
  warnings : Option (List Warning) := none
  subannots : Option (List SubAnnot) := none
deriving Repr, DecidableEq

/-- The inline `assets.find` used twice in the source (lines 74-78 and
219-223): first catalog entry that is a contract-backed fungible asset
whose contract address equals the given one case-insensitively. -/
def findMatchingFungibleAsset
    (assets : List AnyAsset) (contractAddress : String) :
    Option SmartContractFungibleAsset :=
  assets.findSome? (fun a =>
    match a with
    | .fungible f =>
      if sameEVMAddress f.contractAddress contractAddress then some f else none
    | .other => none)

/-- The name map of `annotationsFromLogs` (source lines 54-69): one lookup
per address, `Promise.allSettled` absorbing rejections, keeping only
fulfilled lookups that returned a name, keyed by normalized address. -/
def namesByAddressEntries
    (lookUpName : String → Except Unit (Option String))
    (addresses : List String) : List (String × String) :=
  addresses.filterMap (fun address =>
    match lookUpName address with
    | .ok (some name) => some (normalizeEVMAddress address, name)
    | _ => none)

/-- Source function `annotationsFromLogs` (lines 28-110): parse both log
shapes, filter to transfers touching tracked accounts for name
resolution, then flat-map the parsed transfers to child asset-transfer
records for those whose contract matches a catalog asset. -/
def annotsFromLogs
    (env : Env) (logs : List EVMLog) (desiredDecimals : Nat)
    (resolvedTime : Nat) (block : Option AnyEVMBlock) : List SubAnnot :=
  let assets := env.cachedAssets
  let accountAddresses := env.accountsToTrack
  let tokenTransferLogs :=
    parseLogsForERC20Transfers logs ++ parseLogsForWrappedDepositsAndWithdrawals logs
  let relevantTransferLogs := getERC20LogsForAddresses tokenTransferLogs accountAddresses
  let namesByAddress :=
    namesByAddressEntries env.lookUpName
      (getDistinctRecipentAddressesFromERC20Logs relevantTransferLogs)
  tokenTransferLogs.filterMap (fun t =>
    match findMatchingFungibleAsset assets t.contractAddress with
    | none => none
    | some matchingFungibleAsset =>
      some { type := .assetTransfer
             assetAmount := enrichAssetAmountWithDecimalValues
               { asset := .contract matchingFungibleAsset, amount := t.amount }
               desiredDecimals
             senderAddress := t.senderAddress
             recipientAddress := t.recipientAddress
             recipientName :=
               List.lookup (normalizeEVMAddress t.recipientAddress) namesByAddress
             timestamp := resolvedTime
             blockTimestamp := block.map (fun b => b.timestamp) })

/-- The empty-call-data test of source lines 173-177:
`input === null || input === "0x" || typeof input === "undefined"`. -/
def inputIsEmpty : Option (Option InputData) → Bool
  | none => true
  | some none => true
  | some (some .emptyData) => true
  | some (some _) => false

/-- The decoder call of source line 227, `parseERC20Tx(transaction.input)`,
adapted to the option wrapping of the `input` field: the decoder applies when
the field holds a byte string. -/
def erc20CallOfInput : Option (Option InputData) → Option ERC20Call
  | some (some d) => parseERC20Tx d
  | _ => none

/-- The default value of source lines 130-134: annotate all requests as
contract interactions, stamped with the current time. -/
def initialAnnot (now : Nat) : TxAnnot :=
  { blockTimestamp := none, timestamp := now, type := .contractInteraction }

/-- Source lines 141-156: when the truthiness gate on `gasLimit`,
`maxFeePerGas` and `maxPriorityFeePerGas` passes (all present and
nonzero), fetch the base-asset balance of the sender and push the
`insufficient-funds` warning when `gasFee + (value ?? 0)` exceeds it. -/
def gasWarningStep (env : Env) (tx : Transaction) (txAnnot : TxAnnot) :
    Except Unit TxAnnot :=
  match tx.gasLimit, tx.maxFeePerGas, tx.maxPriorityFeePerGas with
  | some gasLimit, some maxFeePerGas, some maxPriorityFeePerGas =>
    if gasLimit ≠ 0 ∧ maxFeePerGas ≠ 0 ∧ maxPriorityFeePerGas ≠ 0 then do
      let gasFee := gasLimit * maxFeePerGas
      let baseAssetBalance ← env.baseAccountBalance tx.fromAddress
      if gasFee + tx.value.getD 0 > baseAssetBalance then
        pure { txAnnot with
               warnings := some (txAnnot.warnings.getD [] ++ [.insufficientFunds]) }
      else
        pure txAnnot
    else
      pure txAnnot
  | _, _, _ => pure txAnnot

/-- Source lines 158-165: when a block hash is present, fetch the block
and set the block timestamp, also returning the block for the
sub-record derivation step. -/
def blockStep (env : Env) (tx : Transaction) (txAnnot : TxAnnot) :
    Except Unit (TxAnnot × Option AnyEVMBlock) :=
  match tx.blockHash with
  | some blockHash => do
    let block ← env.blockData blockHash
    pure ({ txAnnot with blockTimestamp := block.map (fun b => b.timestamp) }, block)
  | none => pure (txAnnot, none)

/-- Source lines 167-297: the classification branches — contract
deployment when `to` is absent; simple send / fallback call when the
call-data is empty; otherwise catalog match plus ERC-20 decoding. -/
def classifyStep
    (env : Env) (network : EVMNetwork) (tx : Transaction)
    (desiredDecimals : Nat) (txAnnot : TxAnnot) : Except Unit TxAnnot :=
  match tx.toAddr with
  | none => pure { txAnnot with type := .contractDeployment }
  | some toAddr =>
    if inputIsEmpty tx.input then do
      let toName ← env.lookUpName toAddr
      match tx.value with
      | some value =>
        pure { txAnnot with
               type := .assetTransfer
               senderAddress := some tx.fromAddress
               recipientName := toName
               recipientAddress := some toAddr
               assetAmount := some (enrichAssetAmountWithDecimalValues
                 { asset := .base network.baseAsset, amount := value }
                 desiredDecimals) }
      | none =>
        pure { txAnnot with contractName := toName }
    else
      let matchingFungibleAsset := findMatchingFungibleAsset env.cachedAssets toAddr
      let transactionLogoURL := matchingFungibleAsset.bind (fun a => a.logoURL)
      let erc20Tx := erc20CallOfInput tx.input
      match matchingFungibleAsset, erc20Tx with
      | some asset, some (.transfer argTo amount) => do
        let toName ← env.lookUpName argTo
        let t := { txAnnot with
                   type := .assetTransfer
                   transactionLogoURL := transactionLogoURL
                   senderAddress := some tx.fromAddress
                   recipientAddress := some argTo
                   recipientName := toName
                   assetAmount := some (enrichAssetAmountWithDecimalValues
                     { asset := .contract asset, amount := amount } desiredDecimals) }
        pure (if sameEVMAddress argTo toAddr then
                { t with warnings := some [.sendToToken] }
              else t)
      | some asset, some (.transferFrom argFrom argTo amount) => do
        let toName ← env.lookUpName argTo
        let t := { txAnnot with
                   type := .assetTransfer
                   transactionLogoURL := transactionLogoURL
                   senderAddress := some argFrom
                   recipientAddress := some argTo
                   recipientName := toName
                   assetAmount := some (enrichAssetAmountWithDecimalValues
                     { asset := .contract asset, amount := amount } desiredDecimals) }
        pure (if sameEVMAddress argTo toAddr then
                { t with warnings := some [.sendToToken] }
              else t)
      | some asset, some (.approve spender value) => do
        let spenderName ← env.lookUpName spender
        pure { txAnnot with
               type := .assetApproval
               transactionLogoURL := transactionLogoURL
               spenderAddress := some spender
               spenderName := spenderName
               assetAmount := some (enrichAssetAmountWithDecimalValues
                 { asset := .contract asset, amount := value } desiredDecimals) }
      | _, _ => do
        let toName ← env.lookUpName toAddr
        pure { txAnnot with
               type := .contractInteraction
               transactionLogoURL := transactionLogoURL
               contractName := toName }

/-- Source lines 299-315: when logs are present, derive the child
records and attach them only when the list is non-empty. -/
def subannotStep
    (env : Env) (tx : Transaction) (desiredDecimals : Nat)
    (block : Option AnyEVMBlock) (txAnnot : TxAnnot) : TxAnnot :=
  match tx.logs with
  | some logs =>
    let subs := annotsFromLogs env logs desiredDecimals txAnnot.timestamp block
    if subs.length > 0 then { txAnnot with subannots := some subs } else txAnnot
  | none => txAnnot

/-- Source entry point `resolveTransactionAnnotation` (lines 116-318):
start from the default contract-interaction record stamped with the
current time, then run the affordability check, the block fetch, the
classification branches and the sub-record derivation in source
order. -/
def resolveTransactionAnnot
    (env : Env) (network : EVMNetwork) (tx : Transaction)
    (desiredDecimals : Nat) (now : Nat) : Except Unit TxAnnot := do
  let a1 ← gasWarningStep env tx (initialAnnot now)
  let (a2, block) ← blockStep env tx a1
  let a3 ← classifyStep env network tx desiredDecimals a2
  pure (subannotStep env tx desiredDecimals block a3)

/-! Basic reduction lemmas for the `Except Unit` monad used by the
embedding. -/

/-- A catalog token with two decimals. -/
def tokenA : SmartContractFungibleAsset :=
  { symbol := "TKA", decimals := 2, contractAddress := "0xAAA", logoURL := some "logoA" }

/-- The catalog entry of a wrapped-native-asset contract. -/
def wtokenB : SmartContractFungibleAsset :=
  { symbol := "WNAT", decimals := 2, contractAddress := "0xWWW", logoURL := none }

/-- The test network. -/
def netA : EVMNetwork := { baseAsset := { symbol := "ETH", decimals := 3 } }

/-- A collaborator environment: one tracked account, two catalog tokens, a
name only for the address 0xbob, a fixed balance and block. -/
def envA : Env :=
  { accountsToTrack := ["0xME"]
    cachedAssets := [.other, .fungible tokenA, .fungible wtokenB]
    lookUpName := fun a => .ok (if a = "0xbob" then some "bob.eth" else none)
    baseAccountBalance := fun _ => .ok 1000
    blockData := fun _ => .ok (some { timestamp := 777 }) }

/-- A standard transfer log on the catalog token, touching no tracked
account. -/
def logT : EVMLog :=
  { contractAddress := "0xAAA", topics := [transferEventTopic, "0xS1", "0xBOB"], data := 500 }

/-- A wrapped-asset deposit log on the wrapping contract. -/
def logW : EVMLog :=
  { contractAddress := "0xWWW", topics := [depositEventTopic, "0xD1"], data := 70 }

/-- A log no parser recognizes. -/
def logX : EVMLog :=
  { contractAddress := "0xZZZ", topics := ["Other()"], data := 1 }

/-- A fallback value for reading successful results. -/
def defaultAnnot : TxAnnot :=
  { type := .contractInteraction, timestamp := 0, blockTimestamp := none }

/-- The transaction used by the first counterexample: a contract
deployment carrying one standard transfer log that touches no tracked
account. -/
def txC1 : Transaction :=
  { fromAddress := "0xME", toAddr := none, input := none, value := none
    gasLimit := none, maxFeePerGas := none, maxPriorityFeePerGas := none
    blockHash := none, logs := some [logT] }

/-- The per-transfer child-record builder that `annotationsFromLogs`
flat-maps (source lines 71-107), abstracted over the precomputed name
map. -/
def subRecordsForTransfers
    (assets : List AnyAsset) (namesByAddress : List (String × String))
    (transfers : List ERC20TransferLog) (dd t : Nat)
    (blk : Option AnyEVMBlock) : List SubAnnot :=
  transfers.filterMap (fun tr =>
    match findMatchingFungibleAsset assets tr.contractAddress with
    | none => none
    | some matchingFungibleAsset =>
      some { type := .assetTransfer
             assetAmount := enrichAssetAmountWithDecimalValues
               { asset := .contract matchingFungibleAsset, amount := tr.amount } dd
             senderAddress := tr.senderAddress
             recipientAddress := tr.recipientAddress
             recipientName :=
               List.lookup (normalizeEVMAddress tr.recipientAddress) namesByAddress
             timestamp := t
             blockTimestamp := blk.map (fun b => b.timestamp) })

/-- An environment whose name resolver always rejects; balances and
block data still resolve. -/
def envReject : Env :=
  { accountsToTrack := ["0xME"]
    cachedAssets := [.fungible tokenA, .fungible wtokenB]
    lookUpName := fun _ => .error ()
    baseAccountBalance := fun _ => .ok 1000
    blockData := fun _ => .ok (some { timestamp := 777 }) }

/-- A simple send: recipient present, no call data, explicit value. -/
def txSimpleSend : Transaction :=
  { fromAddress := "0xME", toAddr := some "0xBOB", input := none, value := some 5
    gasLimit := none, maxFeePerGas := none, maxPriorityFeePerGas := none
    blockHash := none, logs := none }

/-- A deployment request carrying one transfer log, used to witness the
amended C2. -/
def txC2dep : Transaction :=
  { fromAddress := "0xME", toAddr := none, input := none, value := none
    gasLimit := none, maxFeePerGas := none, maxPriorityFeePerGas := none
    blockHash := none, logs := some [logT] }

/-- The condition under which the send-to-token branch of the source fires
(lines 256-259): the recipient matches a catalog asset, the call data
decodes as a transfer whose decoded recipient equals the token contract
address case-insensitively. -/
def sendToTokenBranch (env : Env) (tx : Transaction) : Prop :=
  ∃ toAddr asset argTo, tx.toAddr = some toAddr ∧
    findMatchingFungibleAsset env.cachedAssets toAddr = some asset ∧
    ((∃ amount, erc20CallOfInput tx.input = some (ERC20Call.transfer argTo amount)) ∨
     (∃ src amount, erc20CallOfInput tx.input =
        some (ERC20Call.transferFrom src argTo amount))) ∧
    sameEVMAddress argTo toAddr = true

/-- A request carrying the gate triple with `gasLimit` present but zero,
and a value far above the balance. -/
def txC3z : Transaction :=
  { fromAddress := "0xME", toAddr := some "0xBOB", input := none
    value := some 2000, gasLimit := some 0, maxFeePerGas := some 7
    maxPriorityFeePerGas := some 1, blockHash := none, logs := none }

/-- The record resolved for `txC3z`. -/
def annC3z : TxAnnot :=
  (resolveTransactionAnnot envA netA txC3z 3 0).toOption.getD defaultAnnot

/-- A request with nonzero gate fields and a value exceeding the
balance, simple-send shaped. -/
def txC3w : Transaction :=
  { fromAddress := "0xME", toAddr := some "0xBOB", input := none
    value := some 2000, gasLimit := some 2, maxFeePerGas := some 3
    maxPriorityFeePerGas := some 1, blockHash := none, logs := none }

/-- The record resolved for `txC3w`. -/
def annC3w : TxAnnot :=
  (resolveTransactionAnnot envA netA txC3w 3 0).toOption.getD defaultAnnot

/-- The record resolved for `txC3z` with a zeroed balance collaborator. -/
def annC10 : TxAnnot :=
  (resolveTransactionAnnot envA netA txC3z 3 0).toOption.getD defaultAnnot

/-- The single child produced for the log of `txC1`. -/
def subC1 : SubAnnot :=
  (annotsFromLogs envA [logT] 2 9 none).headD
    { type := .assetTransfer
      assetAmount := enrichAssetAmountWithDecimalValues
        { asset := .contract tokenA, amount := 0 } 2
      senderAddress := "", recipientAddress := "", recipientName := none
      timestamp := 0, blockTimestamp := none }

/-- An ERC-20 transfer call to the catalog token, addressed with
different casing than the catalog entry. -/
def txC5 : Transaction :=
  { fromAddress := "0xME", toAddr := some "0xaaa"
    input := some (some (.erc20 (.transfer "0xBOB" 500))), value := none
    gasLimit := none, maxFeePerGas := none, maxPriorityFeePerGas := none
    blockHash := none, logs := none }

/-- The record resolved for `txC5`. -/
def annC5 : TxAnnot :=
  (resolveTransactionAnnot envA netA txC5 2 0).toOption.getD defaultAnnot

/-- A simple send with a value present but zero. -/
def txC6 : Transaction :=
  { fromAddress := "0xME", toAddr := some "0xBOB", input := some none
    value := some 0, gasLimit := none, maxFeePerGas := none
    maxPriorityFeePerGas := none, blockHash := none, logs := none }

/-- The record resolved for `txC6`. -/
def annC6 : TxAnnot :=
  (resolveTransactionAnnot envA netA txC6 3 0).toOption.getD defaultAnnot

/-- A transfer of the catalog token to the own contract address of the token,
written in different casing. -/
def txC7 : Transaction :=
  { fromAddress := "0xME", toAddr := some "0xaaa"
    input := some (some (.erc20 (.transfer "0xAaA" 5))), value := none
    gasLimit := none, maxFeePerGas := none, maxPriorityFeePerGas := none
    blockHash := none, logs := none }

/-- The record resolved for `txC7`. -/
def annC7 : TxAnnot :=
  (resolveTransactionAnnot envA netA txC7 2 0).toOption.getD defaultAnnot

/-- An approve call on the catalog token, with a transfer log attached. -/
def txC8 : Transaction :=
  { fromAddress := "0xME", toAddr := some "0xAAA"
    input := some (some (.erc20 (.approve "0xSP" 9))), value := none
    gasLimit := none, maxFeePerGas := none, maxPriorityFeePerGas := none
    blockHash := none, logs := some [logT] }

/-- The record resolved for `txC8`. -/
def annC8 : TxAnnot :=
  (resolveTransactionAnnot envA netA txC8 2 0).toOption.getD defaultAnnot

/-- Replacement of every timestamp field (on the record and on its
children) by a fixed time. -/
def retime (t : Nat) (a : TxAnnot) : TxAnnot :=
  { a with timestamp := t
           subannots := a.subannots.map (List.map (fun s => { s with timestamp := t })) }

/-- Bind on a success reduces to the continuation. -/
@[simp] theorem exceptOkBind {α β : Type} (a : α) (k : α → Except Unit β) :
    (Except.ok a >>= k) = k a := rfl

/-- Bind on a rejection short-circuits. -/
@[simp] theorem exceptErrorBind {α β : Type} (k : α → Except Unit β) :
    ((Except.error () : Except Unit α) >>= k) = Except.error () := rfl

/-- Pure is success. -/
@[simp] theorem exceptPureEqOk {α : Type} (a : α) :
    (pure a : Except Unit α) = Except.ok a := rfl

/-- Map on a success. -/
@[simp] theorem exceptMapOk {α β : Type} (f : α → β) (a : α) :
    Except.map f (Except.ok a : Except Unit α) = Except.ok (f a) := rfl

/-- Map on a rejection. -/
@[simp] theorem exceptMapError {α β : Type} (f : α → β) :
    Except.map f (Except.error () : Except Unit α) = Except.error () := rfl

/-- Inversion of the sequencing in the entry point: a successful result passes
through the four steps in source order. -/
theorem resolve_ok_inv {env : Env} {net : EVMNetwork} {tx : Transaction}
    {dd now : Nat} {ann : TxAnnot}
    (h : resolveTransactionAnnot env net tx dd now = .ok ann) :
    ∃ a1 a2 blk a3,
      gasWarningStep env tx (initialAnnot now) = .ok a1 ∧
      blockStep env tx a1 = .ok (a2, blk) ∧
      classifyStep env net tx dd a2 = .ok a3 ∧
      ann = subannotStep env tx dd blk a3 := by
  unfold resolveTransactionAnnot at h
  cases hg : gasWarningStep env tx (initialAnnot now) with
  | error e => cases e; rw [hg] at h; simp at h
  | ok a1 =>
    rw [hg] at h
    simp only [exceptOkBind] at h
    cases hb : blockStep env tx a1 with
    | error e => cases e; rw [hb] at h; simp at h
    | ok p =>
      obtain ⟨a2, blk⟩ := p
      rw [hb] at h
      simp only [exceptOkBind] at h
      cases hc : classifyStep env net tx dd a2 with
      | error e => cases e; rw [hc] at h; simp at h
      | ok a3 =>
        rw [hc] at h
        simp only [exceptOkBind, exceptPureEqOk, Except.ok.injEq] at h
        exact ⟨a1, a2, blk, a3, rfl, hb, hc, h.symm⟩

/-- A successful affordability step either leaves the value unchanged or
appends the insufficient-funds warning. -/
theorem gasWarningStep_shape {env : Env} {tx : Transaction} {a a1 : TxAnnot}
    (h : gasWarningStep env tx a = .ok a1) :
    a1 = a ∨
      a1 = { a with warnings := some (a.warnings.getD [] ++ [Warning.insufficientFunds]) } := by
  unfold gasWarningStep at h
  split at h
  · split at h
    · cases hb : env.baseAccountBalance tx.fromAddress with
      | error e => cases e; rw [hb] at h; simp at h
      | ok bal =>
        rw [hb] at h
        simp only [exceptOkBind] at h
        split at h
        · right
          simp only [exceptPureEqOk, Except.ok.injEq] at h
          exact h.symm
        · left
          simp only [exceptPureEqOk, Except.ok.injEq] at h
          exact h.symm
    · left
      simp only [exceptPureEqOk, Except.ok.injEq] at h
      exact h.symm
  · left
    simp only [exceptPureEqOk, Except.ok.injEq] at h
    exact h.symm

/-- When the three gate fields are present and nonzero and the balance
fetch succeeds, the result of the affordability step is determined by the
affordability inequality. -/
theorem gasWarningStep_eval {env : Env} {tx : Transaction} {a : TxAnnot}
    {g f p bal : Nat}
    (hg : tx.gasLimit = some g) (hf : tx.maxFeePerGas = some f)
    (hp : tx.maxPriorityFeePerGas = some p)
    (hg0 : g ≠ 0) (hf0 : f ≠ 0) (hp0 : p ≠ 0)
    (hbal : env.baseAccountBalance tx.fromAddress = .ok bal) :
    gasWarningStep env tx a =
      .ok (if g * f + tx.value.getD 0 > bal then
             { a with warnings := some (a.warnings.getD [] ++ [Warning.insufficientFunds]) }
           else a) := by
  unfold gasWarningStep
  rw [hg, hf, hp]
  simp only [hg0, hf0, hp0, ne_eq, not_false_eq_true, and_self, if_true, hbal,
    exceptOkBind]
  split <;> simp

/-- When one of the three gate fields is present but zero, the
affordability step does nothing: no balance fetch is consulted and the
value passes through unchanged. -/
theorem gasWarningStep_skip {env : Env} {tx : Transaction} {a : TxAnnot}
    (h : tx.gasLimit = some 0 ∨ tx.maxFeePerGas = some 0 ∨
         tx.maxPriorityFeePerGas = some 0) :
    gasWarningStep env tx a = .ok a := by
  unfold gasWarningStep
  rcases h with h | h | h <;>
    cases hA : tx.gasLimit <;> cases hB : tx.maxFeePerGas <;>
      cases hC : tx.maxPriorityFeePerGas <;> simp_all

/-- A successful block step only rewrites the block timestamp. -/
theorem blockStep_shape {env : Env} {tx : Transaction} {a a2 : TxAnnot}
    {blk : Option AnyEVMBlock}
    (h : blockStep env tx a = .ok (a2, blk)) :
    a2 = { a with blockTimestamp := a2.blockTimestamp } := by
  unfold blockStep at h
  split at h
  · cases hb : env.blockData _ with
    | error e => cases e; rw [hb] at h; simp at h
    | ok b =>
      rw [hb] at h
      simp only [exceptOkBind, exceptPureEqOk, Except.ok.injEq, Prod.mk.injEq] at h
      rw [← h.1]
  · simp only [exceptPureEqOk, Except.ok.injEq, Prod.mk.injEq] at h
    rw [← h.1]

/-- The sub-record step only writes the `subannots` field. -/
theorem subannotStep_shape (env : Env) (tx : Transaction) (dd : Nat)
    (blk : Option AnyEVMBlock) (a : TxAnnot) :
    subannotStep env tx dd blk a =
      { a with subannots := (subannotStep env tx dd blk a).subannots } := by
  unfold subannotStep
  split
  · dsimp only
    split <;> rfl
  · rfl

/-- A sub-record of the output of this step comes from the input value or
from `annotsFromLogs` over the logs of the transaction. -/
theorem subannotStep_mem {env : Env} {tx : Transaction} {dd : Nat}
    {blk : Option AnyEVMBlock} {a : TxAnnot} {s : SubAnnot}
    (h : s ∈ (subannotStep env tx dd blk a).subannots.getD []) :
    s ∈ a.subannots.getD [] ∨
      ∃ logs, tx.logs = some logs ∧
        s ∈ annotsFromLogs env logs dd a.timestamp blk := by
  unfold subannotStep at h
  split at h
  · dsimp only at h
    split at h
    · right
      rename_i logs heq _
      exact ⟨logs, heq, h⟩
    · left; exact h
  · left; exact h

/-- Every record produced by `annotsFromLogs` is an asset transfer. -/
theorem annotsFromLogs_type {env : Env} {logs : List EVMLog} {dd t : Nat}
    {blk : Option AnyEVMBlock} {s : SubAnnot}
    (h : s ∈ annotsFromLogs env logs dd t blk) :
    s.type = .assetTransfer ∧ s.timestamp = t := by
  unfold annotsFromLogs at h
  simp only [List.mem_filterMap] at h
  obtain ⟨tr, _, htr⟩ := h
  split at htr
  · cases htr
  · cases htr
    exact ⟨rfl, rfl⟩

/-- Inversion of the classification step: a successful result arises from
exactly one of the six source branches, each yielding the recorded
output. -/
theorem classifyStep_cases {env : Env} {net : EVMNetwork} {tx : Transaction}
    {dd : Nat} {a a3 : TxAnnot}
    (h : classifyStep env net tx dd a = .ok a3) :
    (tx.toAddr = none ∧ a3 = { a with type := .contractDeployment })
    ∨ (∃ toAddr nm, tx.toAddr = some toAddr ∧ inputIsEmpty tx.input = true ∧
        env.lookUpName toAddr = .ok nm ∧
        ((∃ v, tx.value = some v ∧
           a3 = { a with
                  type := .assetTransfer
                  senderAddress := some tx.fromAddress
                  recipientName := nm
                  recipientAddress := some toAddr
                  assetAmount := some (enrichAssetAmountWithDecimalValues
                    { asset := .base net.baseAsset, amount := v } dd) })
         ∨ (tx.value = none ∧ a3 = { a with contractName := nm })))
    ∨ (∃ toAddr asset argTo amount nm, tx.toAddr = some toAddr ∧
        inputIsEmpty tx.input = false ∧
        findMatchingFungibleAsset env.cachedAssets toAddr = some asset ∧
        erc20CallOfInput tx.input = some (ERC20Call.transfer argTo amount) ∧
        env.lookUpName argTo = .ok nm ∧
        a3 = (if sameEVMAddress argTo toAddr then
                { a with
                  type := .assetTransfer
                  transactionLogoURL := asset.logoURL
                  senderAddress := some tx.fromAddress
                  recipientAddress := some argTo
                  recipientName := nm
                  assetAmount := some (enrichAssetAmountWithDecimalValues
                    { asset := .contract asset, amount := amount } dd)
                  warnings := some [Warning.sendToToken] }
              else
                { a with
                  type := .assetTransfer
                  transactionLogoURL := asset.logoURL
                  senderAddress := some tx.fromAddress
                  recipientAddress := some argTo
                  recipientName := nm
                  assetAmount := some (enrichAssetAmountWithDecimalValues
                    { asset := .contract asset, amount := amount } dd) }))
    ∨ (∃ toAddr asset src argTo amount nm, tx.toAddr = some toAddr ∧
        inputIsEmpty tx.input = false ∧
        findMatchingFungibleAsset env.cachedAssets toAddr = some asset ∧
        erc20CallOfInput tx.input = some (ERC20Call.transferFrom src argTo amount) ∧
        env.lookUpName argTo = .ok nm ∧
        a3 = (if sameEVMAddress argTo toAddr then
                { a with
                  type := .assetTransfer
                  transactionLogoURL := asset.logoURL
                  senderAddress := some src
                  recipientAddress := some argTo
                  recipientName := nm
                  assetAmount := some (enrichAssetAmountWithDecimalValues
                    { asset := .contract asset, amount := amount } dd)
                  warnings := some [Warning.sendToToken] }
              else
                { a with
                  type := .assetTransfer
                  transactionLogoURL := asset.logoURL
                  senderAddress := some src
                  recipientAddress := some argTo
                  recipientName := nm
                  assetAmount := some (enrichAssetAmountWithDecimalValues
                    { asset := .contract asset, amount := amount } dd) }))
    ∨ (∃ toAddr asset spender value nm, tx.toAddr = some toAddr ∧
        inputIsEmpty tx.input = false ∧
        findMatchingFungibleAsset env.cachedAssets toAddr = some asset ∧
        erc20CallOfInput tx.input = some (ERC20Call.approve spender value) ∧
        env.lookUpName spender = .ok nm ∧
        a3 = { a with
               type := .assetApproval
               transactionLogoURL := asset.logoURL
               spenderAddress := some spender
               spenderName := nm
               assetAmount := some (enrichAssetAmountWithDecimalValues
                 { asset := .contract asset, amount := value } dd) })
    ∨ (∃ toAddr nm, tx.toAddr = some toAddr ∧
        inputIsEmpty tx.input = false ∧
        (findMatchingFungibleAsset env.cachedAssets toAddr = none ∨
         erc20CallOfInput tx.input = none) ∧
        env.lookUpName toAddr = .ok nm ∧
        a3 = { a with
               type := .contractInteraction
               transactionLogoURL :=
                 (findMatchingFungibleAsset env.cachedAssets toAddr).bind
                   (fun x => x.logoURL)
               contractName := nm }) := by
  unfold classifyStep at h
  cases hto : tx.toAddr with
  | none =>
    rw [hto] at h
    simp only [exceptPureEqOk, Except.ok.injEq] at h
    exact Or.inl ⟨rfl, h.symm⟩
  | some toAddr =>
    rw [hto] at h
    cases hie : inputIsEmpty tx.input with
    | true =>
      rw [hie] at h
      simp only [if_true] at h
      cases hnm : env.lookUpName toAddr with
      | error e => cases e; rw [hnm] at h; simp at h
      | ok nm =>
        rw [hnm] at h
        simp only [exceptOkBind] at h
        cases hv : tx.value with
        | some v =>
          rw [hv] at h
          simp only [exceptPureEqOk, Except.ok.injEq] at h
          exact Or.inr (Or.inl ⟨toAddr, nm, rfl, rfl, hnm, Or.inl ⟨v, rfl, h.symm⟩⟩)
        | none =>
          rw [hv] at h
          simp only [exceptPureEqOk, Except.ok.injEq] at h
          exact Or.inr (Or.inl ⟨toAddr, nm, rfl, rfl, hnm, Or.inr ⟨rfl, h.symm⟩⟩)
    | false =>
      rw [hie] at h
      simp only [Bool.false_eq_true, if_false] at h
      cases hma : findMatchingFungibleAsset env.cachedAssets toAddr with
      | none =>
        rw [hma] at h
        cases hnm : env.lookUpName toAddr with
        | error e => cases e; rw [hnm] at h; simp at h
        | ok nm =>
          rw [hnm] at h
          simp only [exceptOkBind, exceptPureEqOk, Except.ok.injEq] at h
          refine Or.inr (Or.inr (Or.inr (Or.inr (Or.inr
            ⟨toAddr, nm, rfl, rfl, Or.inl hma, hnm, ?_⟩))))
          rw [hma]
          simp only [Option.none_bind]
          exact h.symm
      | some asset =>
        rw [hma] at h
        cases herc : erc20CallOfInput tx.input with
        | none =>
          rw [herc] at h
          cases hnm : env.lookUpName toAddr with
          | error e => cases e; rw [hnm] at h; simp at h
          | ok nm =>
            rw [hnm] at h
            simp only [exceptOkBind, exceptPureEqOk, Except.ok.injEq] at h
            refine Or.inr (Or.inr (Or.inr (Or.inr (Or.inr
              ⟨toAddr, nm, rfl, rfl, Or.inr rfl, hnm, ?_⟩))))
            rw [hma]
            simp only [Option.some_bind]
            exact h.symm
        | some c =>
          rw [herc] at h
          cases c with
          | transfer argTo amount =>
            simp only [Option.some_bind] at h
            cases hnm : env.lookUpName argTo with
            | error e => cases e; rw [hnm] at h; simp at h
            | ok nm =>
              rw [hnm] at h
              simp only [exceptOkBind, exceptPureEqOk, Except.ok.injEq] at h
              refine Or.inr (Or.inr (Or.inl
                ⟨toAddr, asset, argTo, amount, nm, ?_, ?_, ?_, ?_, ?_, ?_⟩)) <;>
                first
                  | rfl
                  | exact hma
                  | exact herc
                  | exact hnm
                  | exact h.symm
          | transferFrom src argTo amount =>
            simp only [Option.some_bind] at h
            cases hnm : env.lookUpName argTo with
            | error e => cases e; rw [hnm] at h; simp at h
            | ok nm =>
              rw [hnm] at h
              simp only [exceptOkBind, exceptPureEqOk, Except.ok.injEq] at h
              refine Or.inr (Or.inr (Or.inr (Or.inl
                ⟨toAddr, asset, src, argTo, amount, nm, ?_, ?_, ?_, ?_, ?_, ?_⟩))) <;>
                first
                  | rfl
                  | exact hma
                  | exact herc
                  | exact hnm
                  | exact h.symm
          | approve spender value =>
            simp only [Option.some_bind] at h
            cases hnm : env.lookUpName spender with
            | error e => cases e; rw [hnm] at h; simp at h
            | ok nm =>
              rw [hnm] at h
              simp only [exceptOkBind, exceptPureEqOk, Except.ok.injEq] at h
              refine Or.inr (Or.inr (Or.inr (Or.inr (Or.inl
                ⟨toAddr, asset, spender, value, nm, ?_, ?_, ?_, ?_, ?_, ?_⟩)))) <;>
                first
                  | rfl
                  | exact hma
                  | exact herc
                  | exact hnm
                  | exact h.symm

/-! Concrete fixtures used by counterexamples and witnesses. -/

/-- Length of a filterMap counts the inputs the function keeps. -/
theorem length_filterMap_eq_countP {α β : Type} (f : α → Option β) (l : List α) :
    (l.filterMap f).length = l.countP (fun x => (f x).isSome) := by
  induction l with
  | nil => rfl
  | cons x xs ih =>
    cases hfx : f x <;>
      simp [List.filterMap_cons, hfx, List.countP_cons, ih]

/-- C1: the claim is false on the code: the transfer of `logT` touches no
tracked account (the filtered transfer list is empty), yet the resolved
record carries exactly one child entry for it, because the source
flat-maps the unfiltered parsed-transfer list. -/
theorem c1_counterexample :
    getERC20LogsForAddresses
        (parseLogsForERC20Transfers [logT] ++
          parseLogsForWrappedDepositsAndWithdrawals [logT])
        envA.accountsToTrack = [] ∧
    (resolveTransactionAnnot envA netA txC1 2 0).toOption.map
        (fun a => (a.subannots.getD []).length) = some 1 := by
  decide

/-- C1 (amended): the child list has exactly one entry per parsed
transfer whose contract matches a catalog asset, whether or not the
transfer touches a tracked account; the tracked-account filter only
restricts which recipient names are resolved.  The addresses of every child
and raw amount come from its originating parsed transfer. -/
theorem c1_amended (env : Env) (logs : List EVMLog) (dd t : Nat)
    (blk : Option AnyEVMBlock) :
    (annotsFromLogs env logs dd t blk).length =
      (parseLogsForERC20Transfers logs ++
        parseLogsForWrappedDepositsAndWithdrawals logs).countP
        (fun tr => (findMatchingFungibleAsset env.cachedAssets tr.contractAddress).isSome) ∧
    ∀ s ∈ annotsFromLogs env logs dd t blk,
      ∃ tr ∈ parseLogsForERC20Transfers logs ++
        parseLogsForWrappedDepositsAndWithdrawals logs,
        (findMatchingFungibleAsset env.cachedAssets tr.contractAddress).isSome ∧
        s.senderAddress = tr.senderAddress ∧
        s.recipientAddress = tr.recipientAddress ∧
        s.assetAmount.amount = tr.amount := by
  constructor
  · unfold annotsFromLogs
    rw [length_filterMap_eq_countP]
    apply List.countP_congr
    intro tr _
    cases hm : findMatchingFungibleAsset env.cachedAssets tr.contractAddress <;>
      simp [hm]
  · intro s hs
    unfold annotsFromLogs at hs
    simp only [List.mem_filterMap] at hs
    obtain ⟨tr, htr, hmk⟩ := hs
    refine ⟨tr, htr, ?_⟩
    cases hm : findMatchingFungibleAsset env.cachedAssets tr.contractAddress with
    | none => rw [hm] at hmk; cases hmk
    | some m =>
      rw [hm] at hmk
      cases hmk
      simp [enrichAssetAmountWithDecimalValues]

/-- C4: the claim is false on the code: with the wrapped-deposit log
`logW` first and the standard transfer log `logT` second, the child
derived from `logT` (recipient 0xBOB) precedes the child derived from
`logW` (recipient 0xD1), because the source concatenates all standard
transfers before all wrapped deposits/withdrawals instead of preserving
the interleaved log order. -/
theorem c4_counterexample :
    (annotsFromLogs envA [logW, logT] 2 0 none).map (fun s => s.recipientAddress) =
      ["0xBOB", "0xD1"] ∧
    (parseLogsForERC20Transfers [logW, logT]).map (fun tr => tr.recipientAddress) =
      ["0xBOB"] ∧
    (parseLogsForWrappedDepositsAndWithdrawals [logW, logT]).map
      (fun tr => tr.recipientAddress) = ["0xD1"] := by
  decide

/-- C4 (amended): the child list is the children of the standard
transfer logs, in their originating log order, followed by the children
of the wrapped deposit/withdrawal logs, in their originating log order;
interleavings across the two shapes are not preserved.  Order within
each group holds because each parser and the child builder respect the
sublist relation. -/
theorem c4_amended (env : Env) (logs : List EVMLog) (dd t : Nat)
    (blk : Option AnyEVMBlock) :
    (annotsFromLogs env logs dd t blk =
      subRecordsForTransfers env.cachedAssets
        (namesByAddressEntries env.lookUpName
          (getDistinctRecipentAddressesFromERC20Logs
            (getERC20LogsForAddresses
              (parseLogsForERC20Transfers logs ++
                parseLogsForWrappedDepositsAndWithdrawals logs)
              env.accountsToTrack)))
        (parseLogsForERC20Transfers logs) dd t blk ++
      subRecordsForTransfers env.cachedAssets
        (namesByAddressEntries env.lookUpName
          (getDistinctRecipentAddressesFromERC20Logs
            (getERC20LogsForAddresses
              (parseLogsForERC20Transfers logs ++
                parseLogsForWrappedDepositsAndWithdrawals logs)
              env.accountsToTrack)))
        (parseLogsForWrappedDepositsAndWithdrawals logs) dd t blk) ∧
    (∀ l1 l2 : List EVMLog, l1.Sublist l2 →
      (parseLogsForERC20Transfers l1).Sublist (parseLogsForERC20Transfers l2) ∧
      (parseLogsForWrappedDepositsAndWithdrawals l1).Sublist
        (parseLogsForWrappedDepositsAndWithdrawals l2)) ∧
    (∀ (assets : List AnyAsset) (names : List (String × String))
       (tl1 tl2 : List ERC20TransferLog), tl1.Sublist tl2 →
      (subRecordsForTransfers assets names tl1 dd t blk).Sublist
        (subRecordsForTransfers assets names tl2 dd t blk)) := by
  refine ⟨?_, ?_, ?_⟩
  · simp only [annotsFromLogs, subRecordsForTransfers, List.filterMap_append]
  · intro l1 l2 h
    exact ⟨h.filterMap _, h.filterMap _⟩
  · intro assets names tl1 tl2 h
    exact h.filterMap _

/-- C2: the claim is false on the code: the simple-send branch awaits
the name lookup without a catch, so a rejected lookup escapes the
public entry point as a failure instead of producing the record with
the name absent. -/
theorem c2_counterexample :
    resolveTransactionAnnot envReject netA txSimpleSend 3 0 = .error () := by
  rfl

/-- When every lookup rejects, the settled name map is empty. -/
theorem namesByAddressEntries_reject {lk : String → Except Unit (Option String)}
    (hlk : ∀ a, lk a = .error ()) (addrs : List String) :
    namesByAddressEntries lk addrs = [] := by
  unfold namesByAddressEntries
  induction addrs with
  | nil => rfl
  | cons a rest ih => simp [List.filterMap_cons, hlk a, ih]

/-- Children built under an all-rejecting resolver carry no name. -/
theorem annotsFromLogs_reject {env : Env} {logs : List EVMLog} {dd t : Nat}
    {blk : Option AnyEVMBlock}
    (hlk : ∀ a, env.lookUpName a = .error ()) :
    ∀ s ∈ annotsFromLogs env logs dd t blk, s.recipientName = none := by
  intro s hs
  unfold annotsFromLogs at hs
  dsimp only at hs
  rw [namesByAddressEntries_reject hlk] at hs
  simp only [List.mem_filterMap] at hs
  obtain ⟨tr, _, hmk⟩ := hs
  cases hm : findMatchingFungibleAsset env.cachedAssets tr.contractAddress with
  | none => rw [hm] at hmk; cases hmk
  | some m =>
    rw [hm] at hmk
    cases hmk
    rfl

/-- C2 (amended): only the name lookups of the sub-record derivation are
settled tolerantly: when every name lookup rejects, a transaction whose
primary classification performs no lookup (here: a contract deployment,
with no gas-fee triple and no block hash) still resolves successfully,
and every derived child carries no recipient name; primary-level
lookups, balance fetches and block fetches propagate their rejections
out of the entry point. -/
theorem c2_amended (env : Env) (net : EVMNetwork) (tx : Transaction)
    (dd now : Nat)
    (hlk : ∀ a, env.lookUpName a = .error ())
    (hto : tx.toAddr = none) (hgas : tx.gasLimit = none)
    (hblock : tx.blockHash = none) :
    ∃ ann, resolveTransactionAnnot env net tx dd now = .ok ann ∧
      ∀ s ∈ ann.subannots.getD [], s.recipientName = none := by
  have hg : gasWarningStep env tx (initialAnnot now) = .ok (initialAnnot now) := by
    simp [gasWarningStep, hgas]
  have hb : blockStep env tx (initialAnnot now) = .ok (initialAnnot now, none) := by
    simp [blockStep, hblock]
  have hc : classifyStep env net tx dd (initialAnnot now) =
      .ok { initialAnnot now with type := .contractDeployment } := by
    simp [classifyStep, hto]
  refine ⟨subannotStep env tx dd none
    { initialAnnot now with type := .contractDeployment }, ?_, ?_⟩
  · unfold resolveTransactionAnnot
    rw [hg]
    simp only [exceptOkBind]
    rw [hb]
    simp only [exceptOkBind]
    rw [hc]
    simp only [exceptOkBind, exceptPureEqOk]
  · intro s hs
    rcases subannotStep_mem hs with h | ⟨logs, _, hmem⟩
    · simp [initialAnnot] at h
    · exact annotsFromLogs_reject hlk s hmem

/-- Witness for the amended C2 at a concrete input. -/
theorem c2_amended_witness :
    ∃ ann, resolveTransactionAnnot envReject netA txC2dep 2 7 = .ok ann ∧
      ∀ s ∈ ann.subannots.getD [], s.recipientName = none :=
  c2_amended envReject netA txC2dep 2 7 (fun _ => rfl) rfl rfl rfl

/-- The block step does not touch the warning list. -/
theorem blockStep_warnings {env : Env} {tx : Transaction} {a a2 : TxAnnot}
    {blk : Option AnyEVMBlock} (h : blockStep env tx a = .ok (a2, blk)) :
    a2.warnings = a.warnings := by
  rw [blockStep_shape h]

/-- The sub-record step does not touch the warning list. -/
theorem subannotStep_warnings (env : Env) (tx : Transaction) (dd : Nat)
    (blk : Option AnyEVMBlock) (a : TxAnnot) :
    (subannotStep env tx dd blk a).warnings = a.warnings := by
  rw [subannotStep_shape env tx dd blk a]

/-- The classification step either preserves the warning list or, when
the send-to-token branch fires, replaces it with exactly
`[send-to-token]`. -/
theorem classifyStep_warnings {env : Env} {net : EVMNetwork}
    {tx : Transaction} {dd : Nat} {a a3 : TxAnnot}
    (h : classifyStep env net tx dd a = .ok a3) :
    a3.warnings = a.warnings ∨
      (sendToTokenBranch env tx ∧ a3.warnings = some [Warning.sendToToken]) := by
  rcases classifyStep_cases h with
    ⟨_, h3⟩
    | ⟨toAddr, nm, hto, hie, hnm, hcase⟩
    | ⟨toAddr, asset, argTo, amount, nm, hto, hie, hma, herc, hnm, h3⟩
    | ⟨toAddr, asset, src, argTo, amount, nm, hto, hie, hma, herc, hnm, h3⟩
    | ⟨toAddr, asset, spender, value, nm, hto, hie, hma, herc, hnm, h3⟩
    | ⟨toAddr, nm, hto, hie, hfall, hnm, h3⟩
  · left; rw [h3]
  · rcases hcase with ⟨v, hv, h3⟩ | ⟨hv, h3⟩ <;> (left; rw [h3])
  · by_cases hsame : sameEVMAddress argTo toAddr = true
    · right
      refine ⟨⟨toAddr, asset, argTo, hto, hma, Or.inl ⟨amount, herc⟩, hsame⟩, ?_⟩
      rw [h3, if_pos hsame]
    · left
      rw [h3, if_neg hsame]
  · by_cases hsame : sameEVMAddress argTo toAddr = true
    · right
      refine ⟨⟨toAddr, asset, argTo, hto, hma, Or.inr ⟨src, amount, herc⟩, hsame⟩, ?_⟩
      rw [h3, if_pos hsame]
    · left
      rw [h3, if_neg hsame]
  · left; rw [h3]
  · left; rw [h3]

/-- C3: the claim is false on the code: `txC3z` carries all three fee
fields and `gasLimit * maxFeePerGas + value = 2000` exceeds the fetched
balance 1000, yet no warning is attached, because the source gates the
affordability check on the truthiness of the fields and `0n` is falsy. -/
theorem c3_counterexample :
    txC3z.gasLimit = some 0 ∧ txC3z.maxFeePerGas = some 7 ∧
    txC3z.maxPriorityFeePerGas = some 1 ∧
    envA.baseAccountBalance "0xME" = .ok 1000 ∧
    0 * 7 + 2000 > 1000 ∧
    resolveTransactionAnnot envA netA txC3z 3 0 = .ok annC3z ∧
    annC3z.warnings = none := by
  refine ⟨rfl, rfl, rfl, rfl, by decide, rfl, rfl⟩

/-- C3 (amended): when the three gate fields are present and nonzero and
the send-to-token branch does not fire afterwards, the warning list
contains `insufficient-funds` exactly when
`gasLimit * maxFeePerGas + value` exceeds the fetched balance.  (A field
present but zero skips the check, and the send-to-token branch replaces
the warning list.) -/
theorem c3_amended (env : Env) (net : EVMNetwork) (tx : Transaction)
    (dd now : Nat) (ann : TxAnnot) (g f p bal : Nat)
    (hg : tx.gasLimit = some g) (hf : tx.maxFeePerGas = some f)
    (hp : tx.maxPriorityFeePerGas = some p)
    (hg0 : g ≠ 0) (hf0 : f ≠ 0) (hp0 : p ≠ 0)
    (hbal : env.baseAccountBalance tx.fromAddress = .ok bal)
    (hok : resolveTransactionAnnot env net tx dd now = .ok ann)
    (hnst : ¬ sendToTokenBranch env tx) :
    (Warning.insufficientFunds ∈ ann.warnings.getD []) ↔
      g * f + tx.value.getD 0 > bal := by
  obtain ⟨a1, a2, blk, a3, hga, hbs, hcs, hsub⟩ := resolve_ok_inv hok
  rw [gasWarningStep_eval hg hf hp hg0 hf0 hp0 hbal] at hga
  simp only [Except.ok.injEq] at hga
  have hw1 : a1.warnings =
      (if g * f + tx.value.getD 0 > bal then some [Warning.insufficientFunds]
       else none) := by
    rw [← hga]
    by_cases hcond : g * f + tx.value.getD 0 > bal
    · rw [if_pos hcond, if_pos hcond]
      rfl
    · rw [if_neg hcond, if_neg hcond]
      rfl
  have hw2 : a2.warnings = a1.warnings := blockStep_warnings hbs
  have hw3 : a3.warnings = a2.warnings := by
    rcases classifyStep_warnings hcs with hpres | ⟨hb, _⟩
    · exact hpres
    · exact absurd hb hnst
  have hw4 : ann.warnings = a3.warnings := by
    rw [hsub]
    exact subannotStep_warnings env tx dd blk a3
  rw [hw4, hw3, hw2, hw1]
  by_cases hcond : g * f + tx.value.getD 0 > bal <;> simp [hcond]

/-- Witness for the amended C3 at a concrete input. -/
theorem c3_amended_witness :
    (Warning.insufficientFunds ∈ annC3w.warnings.getD []) ↔
      2 * 3 + txC3w.value.getD 0 > 1000 :=
  c3_amended envA netA txC3w 3 0 annC3w 2 3 1 1000 rfl rfl rfl
    (by decide) (by decide) (by decide) rfl (by rfl)
    (fun hb => by
      obtain ⟨toAddr, asset, argTo, _, _, h3, _⟩ := hb
      rcases h3 with ⟨amt, he⟩ | ⟨src, amt, he⟩ <;> exact Option.noConfusion he)

/-- C10: when one of the three gate fields is present but zero, the
affordability check is skipped entirely: the result does not depend on
the balance collaborator at all, and the `insufficient-funds` warning is
never attached, whatever the transaction value and balance. -/
theorem c10_zero_gate_skips_check (env : Env) (net : EVMNetwork)
    (tx : Transaction) (dd now : Nat) (b : String → Except Unit Nat)
    (h : tx.gasLimit = some 0 ∨ tx.maxFeePerGas = some 0 ∨
         tx.maxPriorityFeePerGas = some 0) :
    resolveTransactionAnnot { env with baseAccountBalance := b } net tx dd now =
      resolveTransactionAnnot env net tx dd now ∧
    ∀ ann, resolveTransactionAnnot env net tx dd now = .ok ann →
      Warning.insufficientFunds ∉ ann.warnings.getD [] := by
  constructor
  · unfold resolveTransactionAnnot
    rw [@gasWarningStep_skip { env with baseAccountBalance := b } tx (initialAnnot now) h,
      @gasWarningStep_skip env tx (initialAnnot now) h]
    rfl
  · intro ann hok
    obtain ⟨a1, a2, blk, a3, hga, hbs, hcs, hsub⟩ := resolve_ok_inv hok
    rw [gasWarningStep_skip h] at hga
    simp only [Except.ok.injEq] at hga
    have hw1 : a1.warnings = none := by rw [← hga]; rfl
    have hw2 : a2.warnings = none := by rw [blockStep_warnings hbs, hw1]
    have hw4 : ann.warnings = a3.warnings := by
      rw [hsub]
      exact subannotStep_warnings env tx dd blk a3
    rcases classifyStep_warnings hcs with hpres | ⟨_, hst⟩
    · rw [hw4, hpres, hw2]
      simp
    · rw [hw4, hst]
      simp

/-- Witness for C10 at a concrete input: `gasLimit` is present but zero
and the value 2000 exceeds both balances, yet swapping the balance
collaborator changes nothing and no insufficient-funds warning appears. -/
theorem c10_witness :
    (resolveTransactionAnnot { envA with baseAccountBalance := fun _ => .ok 0 }
        netA txC3z 3 0 =
      resolveTransactionAnnot envA netA txC3z 3 0) ∧
    Warning.insufficientFunds ∉ annC10.warnings.getD [] :=
  ⟨(c10_zero_gate_skips_check envA netA txC3z 3 0 (fun _ => .ok 0)
      (Or.inl rfl)).1,
   (c10_zero_gate_skips_check envA netA txC3z 3 0 (fun _ => .ok 0)
      (Or.inl rfl)).2 annC10 (by rfl)⟩

/-- Witness for the amended C1 at a concrete input. -/
theorem c1_amended_witness :
    ((annotsFromLogs envA [logT] 2 9 none).length =
      (parseLogsForERC20Transfers [logT] ++
        parseLogsForWrappedDepositsAndWithdrawals [logT]).countP
        (fun tr =>
          (findMatchingFungibleAsset envA.cachedAssets tr.contractAddress).isSome)) ∧
    (∃ tr ∈ parseLogsForERC20Transfers [logT] ++
        parseLogsForWrappedDepositsAndWithdrawals [logT],
      (findMatchingFungibleAsset envA.cachedAssets tr.contractAddress).isSome ∧
      subC1.senderAddress = tr.senderAddress ∧
      subC1.recipientAddress = tr.recipientAddress ∧
      subC1.assetAmount.amount = tr.amount) :=
  ⟨(c1_amended envA [logT] 2 9 none).1,
   (c1_amended envA [logT] 2 9 none).2 subC1 (by exact List.Mem.head [])⟩

/-- Witness for the order-preservation parts of the amended C4 at a concrete
pair of log lists. -/
theorem c4_amended_witness :
    (parseLogsForERC20Transfers [logT]).Sublist
      (parseLogsForERC20Transfers [logW, logT]) ∧
    (parseLogsForWrappedDepositsAndWithdrawals [logT]).Sublist
      (parseLogsForWrappedDepositsAndWithdrawals [logW, logT]) :=
  (c4_amended envA [logW, logT] 2 0 none).2.1 [logT] [logW, logT]
    ((List.Sublist.refl _).cons _)

/-- A successful affordability step only writes the warning list. -/
theorem gasWarningStep_only_warnings {env : Env} {tx : Transaction}
    {a a1 : TxAnnot} (h : gasWarningStep env tx a = .ok a1) :
    a1 = { a with warnings := a1.warnings } := by
  rcases gasWarningStep_shape h with h1 | h1 <;> (subst h1; rfl)

/-- Before classification, the value is the initial record with only the
warning list and block timestamp possibly rewritten. -/
theorem preSteps_shape {env : Env} {tx : Transaction} {now : Nat}
    {a1 a2 : TxAnnot} {blk : Option AnyEVMBlock}
    (hga : gasWarningStep env tx (initialAnnot now) = .ok a1)
    (hbs : blockStep env tx a1 = .ok (a2, blk)) :
    a2 = { initialAnnot now with
           warnings := a2.warnings
           blockTimestamp := a2.blockTimestamp } := by
  have hw := blockStep_warnings hbs
  rw [blockStep_shape hbs, gasWarningStep_only_warnings hga, ← hw]

/-- C5: a transaction to a catalog asset whose call data decodes as
`transfer` or `transferFrom` yields an asset transfer whose recipient is
the decoded `to`, whose sender is the decoded `from` when present and
the transaction sender otherwise, and whose enriched amount is the
decoded raw amount divided by ten to the decimals of the matched asset. -/
theorem c5_erc20_transfer_classification
    (env : Env) (net : EVMNetwork) (tx : Transaction) (dd now : Nat)
    (ann : TxAnnot) (toAddr : String) (asset : SmartContractFungibleAsset)
    (c : ERC20Call)
    (hto : tx.toAddr = some toAddr)
    (hma : findMatchingFungibleAsset env.cachedAssets toAddr = some asset)
    (hin : tx.input = some (some (InputData.erc20 c)))
    (hok : resolveTransactionAnnot env net tx dd now = .ok ann) :
    (∀ argTo amount, c = ERC20Call.transfer argTo amount →
      ann.type = .assetTransfer ∧ ann.recipientAddress = some argTo ∧
      ann.senderAddress = some tx.fromAddress ∧
      ann.assetAmount = some { asset := .contract asset, amount := amount
                               decimalAmount :=
                                 (amount : ℚ) / (10 : ℚ) ^ asset.decimals }) ∧
    (∀ src argTo amount, c = ERC20Call.transferFrom src argTo amount →
      ann.type = .assetTransfer ∧ ann.recipientAddress = some argTo ∧
      ann.senderAddress = some src ∧
      ann.assetAmount = some { asset := .contract asset, amount := amount
                               decimalAmount :=
                                 (amount : ℚ) / (10 : ℚ) ^ asset.decimals }) := by
  have hie0 : inputIsEmpty tx.input = false := by rw [hin]; rfl
  have herc0 : erc20CallOfInput tx.input = some c := by rw [hin]; rfl
  obtain ⟨a1, a2, blk, a3, hga, hbs, hcs, hsub⟩ := resolve_ok_inv hok
  have hann : ann = { a3 with subannots := ann.subannots } := by
    rw [hsub]
    exact subannotStep_shape env tx dd blk a3
  rcases classifyStep_cases hcs with
    ⟨h1, _⟩
    | ⟨toAddr1, nm, hto1, hie1, hnm1, hcase⟩
    | ⟨toAddr1, asset1, argTo1, amount1, nm, hto1, hie1, hma1, herc1, hnm1, h3⟩
    | ⟨toAddr1, asset1, src1, argTo1, amount1, nm, hto1, hie1, hma1, herc1, hnm1, h3⟩
    | ⟨toAddr1, asset1, spender1, value1, nm, hto1, hie1, hma1, herc1, hnm1, h3⟩
    | ⟨toAddr1, nm, hto1, hie1, hfall, hnm1, h3⟩
  · rw [hto] at h1
    exact Option.noConfusion h1
  · rw [hie0] at hie1
    exact Bool.noConfusion hie1
  · rw [hto] at hto1
    injection hto1 with hto1
    subst hto1
    rw [hma] at hma1
    injection hma1 with hma1
    subst hma1
    rw [herc0] at herc1
    injection herc1 with herc1
    subst herc1
    constructor
    · intro argTo amount hc
      cases hc
      rw [hann]
      by_cases hsame : sameEVMAddress argTo1 toAddr = true
      · rw [h3, if_pos hsame]
        exact ⟨rfl, rfl, rfl, rfl⟩
      · rw [h3, if_neg hsame]
        exact ⟨rfl, rfl, rfl, rfl⟩
    · intro src argTo amount hc
      exact ERC20Call.noConfusion hc
  · rw [hto] at hto1
    injection hto1 with hto1
    subst hto1
    rw [hma] at hma1
    injection hma1 with hma1
    subst hma1
    rw [herc0] at herc1
    injection herc1 with herc1
    subst herc1
    constructor
    · intro argTo amount hc
      exact ERC20Call.noConfusion hc
    · intro src argTo amount hc
      cases hc
      rw [hann]
      by_cases hsame : sameEVMAddress argTo1 toAddr = true
      · rw [h3, if_pos hsame]
        exact ⟨rfl, rfl, rfl, rfl⟩
      · rw [h3, if_neg hsame]
        exact ⟨rfl, rfl, rfl, rfl⟩
  · rw [herc0] at herc1
    injection herc1 with herc1
    subst herc1
    constructor
    · intro argTo amount hc
      exact ERC20Call.noConfusion hc
    · intro src argTo amount hc
      exact ERC20Call.noConfusion hc
  · rw [hto] at hto1
    injection hto1 with hto1
    subst hto1
    rcases hfall with hfa | hfe
    · rw [hma] at hfa
      exact Option.noConfusion hfa
    · rw [herc0] at hfe
      exact Option.noConfusion hfe

/-- Witness for C5 at a concrete input. -/
theorem c5_witness :
    annC5.type = .assetTransfer ∧ annC5.recipientAddress = some "0xBOB" ∧
    annC5.senderAddress = some "0xME" ∧
    annC5.assetAmount = some { asset := .contract tokenA, amount := 500
                               decimalAmount :=
                                 (500 : ℚ) / (10 : ℚ) ^ tokenA.decimals } :=
  (c5_erc20_transfer_classification envA netA txC5 2 0 annC5 "0xaaa" tokenA
    (.transfer "0xBOB" 500) rfl (by rfl) rfl (by rfl)).1 "0xBOB" 500 rfl

/-- C6: with a recipient present and empty, null or absent call data, a
present value (zero included) yields a native-asset transfer enriched
from the base asset of the network, while an entirely absent value yields a
contract interaction whose contract name is the resolved recipient name
with no asset amount; the two cases are never collapsed. -/
theorem c6_empty_input_classification
    (env : Env) (net : EVMNetwork) (tx : Transaction) (dd now : Nat)
    (ann : TxAnnot) (toAddr : String)
    (hto : tx.toAddr = some toAddr)
    (hie : inputIsEmpty tx.input = true)
    (hok : resolveTransactionAnnot env net tx dd now = .ok ann) :
    (∀ v, tx.value = some v →
      ann.type = .assetTransfer ∧ ann.senderAddress = some tx.fromAddress ∧
      ann.recipientAddress = some toAddr ∧
      ann.assetAmount = some { asset := .base net.baseAsset, amount := v
                               decimalAmount :=
                                 (v : ℚ) / (10 : ℚ) ^ net.baseAsset.decimals }) ∧
    (tx.value = none →
      ann.type = .contractInteraction ∧ ann.assetAmount = none ∧
      ∃ nm, env.lookUpName toAddr = .ok nm ∧ ann.contractName = nm) := by
  obtain ⟨a1, a2, blk, a3, hga, hbs, hcs, hsub⟩ := resolve_ok_inv hok
  have ha2 := preSteps_shape hga hbs
  have hann : ann = { a3 with subannots := ann.subannots } := by
    rw [hsub]
    exact subannotStep_shape env tx dd blk a3
  rcases classifyStep_cases hcs with
    ⟨h1, _⟩
    | ⟨toAddr1, nm, hto1, hie1, hnm1, hcase⟩
    | ⟨toAddr1, asset1, argTo1, amount1, nm, hto1, hie1, hma1, herc1, hnm1, h3⟩
    | ⟨toAddr1, asset1, src1, argTo1, amount1, nm, hto1, hie1, hma1, herc1, hnm1, h3⟩
    | ⟨toAddr1, asset1, spender1, value1, nm, hto1, hie1, hma1, herc1, hnm1, h3⟩
    | ⟨toAddr1, nm, hto1, hie1, hfall, hnm1, h3⟩
  · rw [hto] at h1
    exact Option.noConfusion h1
  · rw [hto] at hto1
    injection hto1 with hto1
    subst hto1
    constructor
    · intro v hv
      rcases hcase with ⟨v1, hv1, h3⟩ | ⟨hv1, h3⟩
      · rw [hv] at hv1
        injection hv1 with hv1
        subst hv1
        rw [hann, h3]
        exact ⟨rfl, rfl, rfl, rfl⟩
      · rw [hv] at hv1
        exact Option.noConfusion hv1
    · intro hv
      rcases hcase with ⟨v1, hv1, h3⟩ | ⟨hv1, h3⟩
      · rw [hv] at hv1
        exact Option.noConfusion hv1
      · refine ⟨?_, ?_, nm, hnm1, ?_⟩ <;> (rw [hann, h3, ha2]; try rfl)
  all_goals
    rw [hie] at hie1
    exact Bool.noConfusion hie1

/-- Witness for C6 at a concrete input with value present and zero. -/
theorem c6_witness :
    annC6.type = .assetTransfer ∧ annC6.senderAddress = some "0xME" ∧
    annC6.recipientAddress = some "0xBOB" ∧
    annC6.assetAmount = some { asset := .base netA.baseAsset, amount := 0
                               decimalAmount :=
                                 (0 : ℚ) / (10 : ℚ) ^ netA.baseAsset.decimals } :=
  (c6_empty_input_classification envA netA txC6 3 0 annC6 "0xBOB" rfl rfl
    (by rfl)).1 0 rfl

/-- C7: for a decoded `transfer`/`transferFrom` to a catalog asset, the
warning list contains `send-to-token` exactly when the decoded recipient
equals the own contract address of the token, case-insensitively. -/
theorem c7_send_to_token_warning
    (env : Env) (net : EVMNetwork) (tx : Transaction) (dd now : Nat)
    (ann : TxAnnot) (toAddr : String) (asset : SmartContractFungibleAsset)
    (c : ERC20Call)
    (hto : tx.toAddr = some toAddr)
    (hma : findMatchingFungibleAsset env.cachedAssets toAddr = some asset)
    (hin : tx.input = some (some (InputData.erc20 c)))
    (hok : resolveTransactionAnnot env net tx dd now = .ok ann) :
    (∀ argTo amount, c = ERC20Call.transfer argTo amount →
      ((Warning.sendToToken ∈ ann.warnings.getD []) ↔
        sameEVMAddress argTo toAddr = true)) ∧
    (∀ src argTo amount, c = ERC20Call.transferFrom src argTo amount →
      ((Warning.sendToToken ∈ ann.warnings.getD []) ↔
        sameEVMAddress argTo toAddr = true)) := by
  have hie0 : inputIsEmpty tx.input = false := by rw [hin]; rfl
  have herc0 : erc20CallOfInput tx.input = some c := by rw [hin]; rfl
  obtain ⟨a1, a2, blk, a3, hga, hbs, hcs, hsub⟩ := resolve_ok_inv hok
  have hwann : ann.warnings = a3.warnings := by
    rw [hsub]
    exact subannotStep_warnings env tx dd blk a3
  have hw2 : a2.warnings = none ∨ a2.warnings = some [Warning.insufficientFunds] := by
    rcases gasWarningStep_shape hga with h1 | h1 <;>
      rw [blockStep_warnings hbs, h1] <;> simp [initialAnnot]
  rcases classifyStep_cases hcs with
    ⟨h1, _⟩
    | ⟨toAddr1, nm, hto1, hie1, hnm1, hcase⟩
    | ⟨toAddr1, asset1, argTo1, amount1, nm, hto1, hie1, hma1, herc1, hnm1, h3⟩
    | ⟨toAddr1, asset1, src1, argTo1, amount1, nm, hto1, hie1, hma1, herc1, hnm1, h3⟩
    | ⟨toAddr1, asset1, spender1, value1, nm, hto1, hie1, hma1, herc1, hnm1, h3⟩
    | ⟨toAddr1, nm, hto1, hie1, hfall, hnm1, h3⟩
  · rw [hto] at h1
    exact Option.noConfusion h1
  · rw [hie0] at hie1
    exact Bool.noConfusion hie1
  · rw [hto] at hto1
    injection hto1 with hto1
    subst hto1
    rw [herc0] at herc1
    injection herc1 with herc1
    subst herc1
    constructor
    · intro argTo amount hc
      cases hc
      by_cases hsame : sameEVMAddress argTo1 toAddr = true
      · rw [hwann, h3, if_pos hsame]
        simp [hsame]
      · rw [hwann, h3, if_neg hsame]
        rcases hw2 with h2 | h2 <;> rw [h2] <;> simp [hsame]
    · intro src argTo amount hc
      exact ERC20Call.noConfusion hc
  · rw [hto] at hto1
    injection hto1 with hto1
    subst hto1
    rw [herc0] at herc1
    injection herc1 with herc1
    subst herc1
    constructor
    · intro argTo amount hc
      exact ERC20Call.noConfusion hc
    · intro src argTo amount hc
      cases hc
      by_cases hsame : sameEVMAddress argTo1 toAddr = true
      · rw [hwann, h3, if_pos hsame]
        simp [hsame]
      · rw [hwann, h3, if_neg hsame]
        rcases hw2 with h2 | h2 <;> rw [h2] <;> simp [hsame]
  · rw [herc0] at herc1
    injection herc1 with herc1
    subst herc1
    exact ⟨fun _ _ hc => ERC20Call.noConfusion hc,
           fun _ _ _ hc => ERC20Call.noConfusion hc⟩
  · rw [hto] at hto1
    injection hto1 with hto1
    subst hto1
    rcases hfall with hfa | hfe
    · rw [hma] at hfa
      exact Option.noConfusion hfa
    · rw [herc0] at hfe
      exact Option.noConfusion hfe

/-- Witness for C7 at a concrete input where the decoded recipient is
the token contract itself. -/
theorem c7_witness :
    (Warning.sendToToken ∈ annC7.warnings.getD []) ↔
      sameEVMAddress "0xAaA" "0xaaa" = true :=
  (c7_send_to_token_warning envA netA txC7 2 0 annC7 "0xaaa" tokenA
    (.transfer "0xAaA" 5) rfl (by rfl) rfl (by rfl)).1 "0xAaA" 5 rfl

/-- The classification step never touches the `subannots` field. -/
theorem classifyStep_subannots {env : Env} {net : EVMNetwork}
    {tx : Transaction} {dd : Nat} {a a3 : TxAnnot}
    (h : classifyStep env net tx dd a = .ok a3) :
    a3.subannots = a.subannots := by
  rcases classifyStep_cases h with
    ⟨_, h3⟩
    | ⟨toAddr1, nm, _, _, _, hcase⟩
    | ⟨toAddr1, asset1, argTo1, amount1, nm, _, _, _, _, _, h3⟩
    | ⟨toAddr1, asset1, src1, argTo1, amount1, nm, _, _, _, _, _, h3⟩
    | ⟨toAddr1, asset1, spender1, value1, nm, _, _, _, _, _, h3⟩
    | ⟨toAddr1, nm, _, _, _, _, h3⟩
  · rw [h3]
  · rcases hcase with ⟨v1, _, h3⟩ | ⟨_, h3⟩ <;> rw [h3]
  · rw [h3]; split <;> rfl
  · rw [h3]; split <;> rfl
  · rw [h3]
  · rw [h3]

/-- C8: the `type` tag determines which variant fields are populated;
fields of the other variants are absent, and every sub-record is an
asset transfer. -/
theorem c8_variant_field_discipline
    (env : Env) (net : EVMNetwork) (tx : Transaction) (dd now : Nat)
    (ann : TxAnnot)
    (hok : resolveTransactionAnnot env net tx dd now = .ok ann) :
    (ann.type = .contractInteraction →
      ann.senderAddress = none ∧ ann.recipientAddress = none ∧
      ann.recipientName = none ∧ ann.spenderAddress = none ∧
      ann.spenderName = none ∧ ann.assetAmount = none) ∧
    (ann.type = .contractDeployment →
      ann.senderAddress = none ∧ ann.recipientAddress = none ∧
      ann.recipientName = none ∧ ann.spenderAddress = none ∧
      ann.spenderName = none ∧ ann.assetAmount = none ∧
      ann.contractName = none ∧ ann.transactionLogoURL = none) ∧
    (ann.type = .assetTransfer →
      ann.spenderAddress = none ∧ ann.spenderName = none ∧
      ann.contractName = none) ∧
    (ann.type = .assetApproval →
      ann.senderAddress = none ∧ ann.recipientAddress = none ∧
      ann.recipientName = none ∧ ann.contractName = none) ∧
    (∀ s ∈ ann.subannots.getD [], s.type = AnnotType.assetTransfer) := by
  obtain ⟨a1, a2, blk, a3, hga, hbs, hcs, hsub⟩ := resolve_ok_inv hok
  have ha2 := preSteps_shape hga hbs
  have hann : ann = { a3 with subannots := ann.subannots } := by
    rw [hsub]
    exact subannotStep_shape env tx dd blk a3
  have hsubs3 : a3.subannots = none := by
    rw [classifyStep_subannots hcs, ha2]
    rfl
  have hlast : ∀ s ∈ ann.subannots.getD [], s.type = AnnotType.assetTransfer := by
    intro s hs
    rw [hsub] at hs
    rcases subannotStep_mem hs with hmem | ⟨logs, _, hmem⟩
    · rw [hsubs3] at hmem
      simp at hmem
    · exact (annotsFromLogs_type hmem).1
  have ht : ann.type = a3.type := by rw [hann]
  have hsa : ann.senderAddress = a3.senderAddress := by rw [hann]
  have hra : ann.recipientAddress = a3.recipientAddress := by rw [hann]
  have hrn : ann.recipientName = a3.recipientName := by rw [hann]
  have hspa : ann.spenderAddress = a3.spenderAddress := by rw [hann]
  have hspn : ann.spenderName = a3.spenderName := by rw [hann]
  have haa : ann.assetAmount = a3.assetAmount := by rw [hann]
  have hcn : ann.contractName = a3.contractName := by rw [hann]
  have hlogo : ann.transactionLogoURL = a3.transactionLogoURL := by rw [hann]
  rw [ht, hsa, hra, hrn, hspa, hspn, haa, hcn, hlogo]
  refine ⟨?_, ?_, ?_, ?_, hlast⟩ <;>
  · rcases classifyStep_cases hcs with
      ⟨_, h3⟩
      | ⟨toAddr1, nm, _, _, _, hcase⟩
      | ⟨toAddr1, asset1, argTo1, amount1, nm, _, _, _, _, _, h3⟩
      | ⟨toAddr1, asset1, src1, argTo1, amount1, nm, _, _, _, _, _, h3⟩
      | ⟨toAddr1, asset1, spender1, value1, nm, _, _, _, _, _, h3⟩
      | ⟨toAddr1, nm, _, _, _, _, h3⟩
    · rw [h3, ha2]
      simp [initialAnnot]
    · rcases hcase with ⟨v1, _, h3⟩ | ⟨_, h3⟩ <;> (rw [h3, ha2]; simp [initialAnnot])
    · by_cases hsame : sameEVMAddress argTo1 toAddr1 = true <;>
        [rw [h3, if_pos hsame, ha2]; rw [h3, if_neg hsame, ha2]] <;>
        simp [initialAnnot]
    · by_cases hsame : sameEVMAddress argTo1 toAddr1 = true <;>
        [rw [h3, if_pos hsame, ha2]; rw [h3, if_neg hsame, ha2]] <;>
        simp [initialAnnot]
    · rw [h3, ha2]
      simp [initialAnnot]
    · rw [h3, ha2]
      simp [initialAnnot]

/-- Witness for C8 at a concrete asset-approval input. -/
theorem c8_witness :
    annC8.senderAddress = none ∧ annC8.recipientAddress = none ∧
    annC8.recipientName = none ∧ annC8.contractName = none :=
  (c8_variant_field_discipline envA netA txC8 2 0 annC8 (by rfl)).2.2.2.1 (by rfl)

/-- The affordability step commutes with changing the initial
timestamp. -/
theorem gasWarningStep_retime (env : Env) (tx : Transaction) (a : TxAnnot)
    (t : Nat) :
    gasWarningStep env tx { a with timestamp := t } =
      (gasWarningStep env tx a).map (fun x => { x with timestamp := t }) := by
  unfold gasWarningStep
  cases tx.gasLimit <;> cases tx.maxFeePerGas <;> cases tx.maxPriorityFeePerGas <;>
    try rfl
  dsimp only
  split
  · cases env.baseAccountBalance tx.fromAddress
    · rfl
    · simp only [exceptOkBind]
      split <;> rfl
  · rfl

/-- The block step commutes with changing the initial timestamp. -/
theorem blockStep_retime (env : Env) (tx : Transaction) (a : TxAnnot)
    (t : Nat) :
    blockStep env tx { a with timestamp := t } =
      (blockStep env tx a).map (fun p => ({ p.1 with timestamp := t }, p.2)) := by
  unfold blockStep
  cases tx.blockHash with
  | none => rfl
  | some h =>
    dsimp only
    cases env.blockData h
    · rfl
    · rfl

/-- The classification step commutes with changing the initial
timestamp. -/
theorem classifyStep_retime (env : Env) (net : EVMNetwork)
    (tx : Transaction) (dd : Nat) (a : TxAnnot) (t : Nat) :
    classifyStep env net tx dd { a with timestamp := t } =
      (classifyStep env net tx dd a).map (fun x => { x with timestamp := t }) := by
  unfold classifyStep
  cases tx.toAddr with
  | none => rfl
  | some toAddr =>
    dsimp only
    split
    · cases env.lookUpName toAddr
      · rfl
      · simp only [exceptOkBind]
        cases tx.value <;> rfl
    · cases findMatchingFungibleAsset env.cachedAssets toAddr with
      | none =>
        cases erc20CallOfInput tx.input with
        | none => cases env.lookUpName toAddr <;> rfl
        | some c => cases c <;> (cases env.lookUpName toAddr <;> rfl)
      | some asset =>
        cases erc20CallOfInput tx.input with
        | none => cases env.lookUpName toAddr <;> rfl
        | some c =>
          cases c with
          | transfer argTo amount =>
            dsimp only
            cases env.lookUpName argTo
            · rfl
            · simp only [exceptOkBind]
              split <;> rfl
          | transferFrom src argTo amount =>
            dsimp only
            cases env.lookUpName argTo
            · rfl
            · simp only [exceptOkBind]
              split <;> rfl
          | approve spender value =>
            dsimp only
            cases env.lookUpName spender <;> rfl

/-- The children derived from logs at one resolved time are the children
derived at another time with their timestamps replaced. -/
theorem annotsFromLogs_retime (env : Env) (logs : List EVMLog) (dd : Nat)
    (blk : Option AnyEVMBlock) (t t0 : Nat) :
    annotsFromLogs env logs dd t blk =
      (annotsFromLogs env logs dd t0 blk).map
        (fun s => { s with timestamp := t }) := by
  unfold annotsFromLogs
  dsimp only
  rw [List.map_filterMap]
  congr 1
  funext tr
  cases findMatchingFungibleAsset env.cachedAssets tr.contractAddress <;> rfl

/-- The sub-record step commutes with changing the timestamp, provided
no children were previously attached. -/
theorem subannotStep_retime (env : Env) (tx : Transaction) (dd : Nat)
    (blk : Option AnyEVMBlock) (a : TxAnnot) (t : Nat)
    (hsubs : a.subannots = none) :
    subannotStep env tx dd blk { a with timestamp := t } =
      retime t (subannotStep env tx dd blk a) := by
  unfold subannotStep
  cases tx.logs with
  | none =>
    dsimp only
    rw [retime, hsubs]
    rfl
  | some logs =>
    dsimp only
    rw [annotsFromLogs_retime env logs dd blk t a.timestamp]
    rw [List.length_map]
    split
    · rw [retime]
      rfl
    · rw [retime, hsubs]
      rfl

/-- C9: the entry point is a pure function of the transaction, the
collaborator responses and the clock: two runs at different clock values
differ exactly by replacing every timestamp field (on the record and on
its children). -/
theorem c9_deterministic_modulo_timestamp (env : Env) (net : EVMNetwork)
    (tx : Transaction) (dd : Nat) (t1 t2 : Nat) :
    resolveTransactionAnnot env net tx dd t2 =
      (resolveTransactionAnnot env net tx dd t1).map (retime t2) := by
  unfold resolveTransactionAnnot
  have h0 : initialAnnot t2 = { initialAnnot t1 with timestamp := t2 } := rfl
  rw [h0, gasWarningStep_retime]
  cases hga : gasWarningStep env tx (initialAnnot t1) with
  | error e => cases e; rfl
  | ok a1 =>
    simp only [exceptMapOk, exceptOkBind]
    rw [blockStep_retime]
    cases hbs : blockStep env tx a1 with
    | error e => cases e; rfl
    | ok p =>
      obtain ⟨a2, blk⟩ := p
      simp only [exceptMapOk, exceptOkBind]
      rw [classifyStep_retime]
      cases hcs : classifyStep env net tx dd a2 with
      | error e => cases e; rfl
      | ok a3 =>
        simp only [exceptMapOk, exceptOkBind, exceptPureEqOk]
        have hsubs3 : a3.subannots = none := by
          rw [classifyStep_subannots hcs, preSteps_shape hga hbs]
          rfl
        rw [subannotStep_retime env tx dd blk a3 t2 hsubs3]
